import Mathlib

/-!
Verification of the `bot_webhook` repository's core components against its
specification.  Python code is shallowly embedded: pure functions become Lean
functions, stateful loops become explicit state passing, Python floats are
modelled as exact rationals (`ℚ`), fallible paths return `Option`/`Except`,
and Python `str` operations are re-implemented structurally over `List Char`
(ASCII case mapping, as in the inputs the program handles).
-/

namespace Phantom

/-! ## String helpers (Python `str` operations, structural recursion) -/

/-- Python `s.lower()` (ASCII case mapping), structurally over the char list. -/
def lowerStr (s : String) : String := ⟨s.data.map Char.toLower⟩

/-- Python `s.upper()` (ASCII case mapping), structurally over the char list. -/
def upperStr (s : String) : String := ⟨s.data.map Char.toUpper⟩

/-- Helper for `substrOf`: does `n` occur as a contiguous sublist of the list? -/
def infixCheck (n : List Char) : List Char → Bool
  | [] => n.isEmpty
  | c :: cs => n.isPrefixOf (c :: cs) || infixCheck n cs

/-- Python `needle in haystack` on strings (contiguous substring test). -/
def substrOf (needle haystack : String) : Bool :=
  infixCheck needle.data haystack.data

/-- Ascending code-point comparison on char lists (Python `str` ordering). -/
def charListLe : List Char → List Char → Bool
  | [], _ => true
  | _ :: _, [] => false
  | a :: as, b :: bs =>
    if a.toNat < b.toNat then true
    else if b.toNat < a.toNat then false
    else charListLe as bs

/-- Python `a <= b` on strings (lexicographic by code point). -/
def strLe (a b : String) : Bool := charListLe a.data b.data

/-- Stable insertion of a string into an ascending list. -/
def insertSorted (x : String) : List String → List String
  | [] => [x]
  | y :: ys => if strLe x y then x :: y :: ys else y :: insertSorted x ys

/-- Python `sorted(l)` for a list of strings (ascending by code point). -/
def sortStrings (l : List String) : List String := l.foldr insertSorted []

/-- Python `sep.join(l)`. -/
def joinWith (sep : String) : List String → String
  | [] => ""
  | [x] => x
  | x :: xs => x ++ sep ++ joinWith sep xs

/-! ## Task scheduler retry logic — `phantom/core/task.py`, `TaskManager._run_task`

The retry decision of `_run_task` is a sequential loop; we embed it as a
fuel-indexed recursion over the stream of handler results (`handler i` is the
`TaskResult` of the i-th invocation of the checkout handler).  Statuses other
than the ones the loop can end in are omitted.  Cancellation and handler
exceptions are out of scope of the embedded fragment (claim C1 concerns the
non-exceptional result path). -/

inductive TaskStatus where
  | success
  | declined
  | failed
  | cancelled
  | error
deriving DecidableEq, Repr

structure TaskResult where
  success : Bool
  error_message : Option String
deriving DecidableEq, Repr

structure TaskConfig where
  retry_on_decline : Bool := false
  retry_on_error : Bool := true
  max_retries : Nat := 3
deriving DecidableEq, Repr

/-- `is_decline` in `_run_task`: the error message is truthy and contains
"decline" case-insensitively (`"decline" in result.error_message.lower()`). -/
def isDecline (r : TaskResult) : Bool :=
  match r.error_message with
  | none => false
  | some m => (decide (m ≠ "")) && substrOf "decline" (lowerStr m)

/-- Line 219 of task.py: `max_retries = task.config.max_retries if
task.config.retry_on_error else 0`. -/
def effectiveMaxRetries (cfg : TaskConfig) : Nat :=
  if cfg.retry_on_error then cfg.max_retries else 0

/-- One pass of the `while task._retry_count <= max_retries` loop of
`_run_task`, with `rc` the current `_retry_count`.  Returns the final task
status and the final retry count.  The loop can only exit through one of its
`break` statements (after a retry the guard `rc < max_retries` guarantees the
`while` condition still holds), so the fuel value `effectiveMaxRetries cfg + 1`
used by `runTask` is always sufficient; the fuel-0 branch is unreachable. -/
def runTaskLoop (cfg : TaskConfig) (handler : Nat → TaskResult) :
    Nat → Nat → TaskStatus × Nat
  | 0, rc => (TaskStatus.error, rc)
  | fuel + 1, rc =>
    let result := handler rc
    if result.success then
      (TaskStatus.success, rc)
    else
      let isDec := isDecline result
      let shouldRetry :=
        ((cfg.retry_on_error && !isDec) || (cfg.retry_on_decline && isDec)) &&
          decide (rc < effectiveMaxRetries cfg)
      if shouldRetry then
        runTaskLoop cfg handler fuel (rc + 1)
      else
        (if isDec then TaskStatus.declined else TaskStatus.failed, rc)

/-- `_run_task` on the non-exceptional path: run the retry loop from
`_retry_count = 0`. -/
def runTask (cfg : TaskConfig) (handler : Nat → TaskResult) : TaskStatus × Nat :=
  runTaskLoop cfg handler (effectiveMaxRetries cfg + 1) 0

/-- The handler is called once per loop iteration, and every iteration but the
last increments `_retry_count` by exactly one, so the number of handler
invocations is the final retry count plus one. -/
def invocationCount (cfg : TaskConfig) (handler : Nat → TaskResult) : Nat :=
  (runTask cfg handler).2 + 1

/-- The final retry count never exceeds the effective retry bound. -/
lemma runTaskLoop_rc_le (cfg : TaskConfig) (handler : Nat → TaskResult) :
    ∀ fuel rc, rc ≤ effectiveMaxRetries cfg →
      (runTaskLoop cfg handler fuel rc).2 ≤ effectiveMaxRetries cfg := by
  intro fuel
  induction fuel with
  | zero => intro rc h; exact h
  | succ n ih =>
    intro rc h
    simp only [runTaskLoop]
    split
    · exact h
    · split
      · rename_i hretry
        have hlt : rc < effectiveMaxRetries cfg := by
          have := (Bool.and_eq_true _ _).mp hretry
          exact of_decide_eq_true this.2
        exact ih (rc + 1) hlt
      · exact h

/-- If every handler invocation fails with a decline and both retry flags are
set, the loop retries all the way to the effective bound and ends declined. -/
lemma runTaskLoop_always_decline (cfg : TaskConfig) (handler : Nat → TaskResult)
    (hro : cfg.retry_on_error = true) (hrd : cfg.retry_on_decline = true)
    (hall : ∀ i, (handler i).success = false ∧ isDecline (handler i) = true) :
    ∀ fuel rc, rc ≤ effectiveMaxRetries cfg →
      rc + fuel = effectiveMaxRetries cfg + 1 →
      runTaskLoop cfg handler fuel rc =
        (TaskStatus.declined, effectiveMaxRetries cfg) := by
  intro fuel
  induction fuel with
  | zero =>
    intro rc hle hsum
    omega
  | succ n ih =>
    intro rc hle hsum
    have hfail := (hall rc).1
    have hdec := (hall rc).2
    rcases Nat.lt_or_ge rc (effectiveMaxRetries cfg) with hlt | hge
    · have hstep : runTaskLoop cfg handler (n + 1) rc =
          runTaskLoop cfg handler n (rc + 1) := by
        simp [runTaskLoop, hfail, hdec, hro, hrd, hlt]
      rw [hstep]
      exact ih (rc + 1) hlt (by omega)
    · have heq : rc = effectiveMaxRetries cfg := Nat.le_antisymm hle hge
      subst heq
      simp [runTaskLoop, hfail, hdec, hro, hrd]

/-- If the first `k` invocations fail without a decline and the `k`-th
invocation succeeds, the loop (with retries on error enabled) ends in
`success` with retry count `k`. -/
lemma runTaskLoop_success_at (cfg : TaskConfig) (handler : Nat → TaskResult)
    (k : Nat) (hro : cfg.retry_on_error = true)
    (hk : k ≤ effectiveMaxRetries cfg)
    (hpre : ∀ i, i < k → (handler i).success = false ∧ isDecline (handler i) = false)
    (hsucc : (handler k).success = true) :
    ∀ fuel rc, rc ≤ k → rc + fuel = effectiveMaxRetries cfg + 1 →
      runTaskLoop cfg handler fuel rc = (TaskStatus.success, k) := by
  intro fuel
  induction fuel with
  | zero =>
    intro rc hle hsum
    omega
  | succ n ih =>
    intro rc hle hsum
    rcases Nat.lt_or_ge rc k with hlt | hge
    · have hfail := (hpre rc hlt).1
      have hdec := (hpre rc hlt).2
      have hrclt : rc < effectiveMaxRetries cfg := Nat.lt_of_lt_of_le hlt hk
      have hstep : runTaskLoop cfg handler (n + 1) rc =
          runTaskLoop cfg handler n (rc + 1) := by
        simp [runTaskLoop, hfail, hdec, hro, hrclt]
      rw [hstep]
      exact ih (rc + 1) hlt (by omega)
    · have heq : rc = k := Nat.le_antisymm hle hge
      subst heq
      simp [runTaskLoop, hsucc]

/-- Claim C1 (amended): non-success results are retried only when permitted by
the flags and only while the retry count is below the bound, and a declined
result with `retry_on_decline=false` is never retried; but the retry budget is
`max_retries` only when `retry_on_error=true` — when `retry_on_error=false`
the effective budget is `0`, so even a decline with `retry_on_decline=true` is
never retried.  With both flags set, an always-declining handler is retried
exactly `max_retries` times, and a run whose first `k` attempts fail (without
declining) before attempt `k` succeeds ends in `success` with retry count `k`. -/
theorem run_task_retry_policy (cfg : TaskConfig) (handler : Nat → TaskResult) :
    (runTask cfg handler).2 ≤ cfg.max_retries ∧
    ((handler 0).success = false → isDecline (handler 0) = true →
      cfg.retry_on_decline = false →
      runTask cfg handler = (TaskStatus.declined, 0)) ∧
    (cfg.retry_on_error = false → (handler 0).success = false →
      runTask cfg handler =
        (if isDecline (handler 0) then TaskStatus.declined else TaskStatus.failed, 0)) ∧
    (cfg.retry_on_error = true → cfg.retry_on_decline = true →
      (∀ i, (handler i).success = false ∧ isDecline (handler i) = true) →
      runTask cfg handler = (TaskStatus.declined, cfg.max_retries)) ∧
    (∀ k, cfg.retry_on_error = true → k ≤ cfg.max_retries →
      (∀ i, i < k → (handler i).success = false ∧ isDecline (handler i) = false) →
      (handler k).success = true →
      runTask cfg handler = (TaskStatus.success, k)) := by
  refine ⟨?_, ?_, ?_, ?_, ?_⟩
  · have h := runTaskLoop_rc_le cfg handler (effectiveMaxRetries cfg + 1) 0
      (Nat.zero_le _)
    have hle : effectiveMaxRetries cfg ≤ cfg.max_retries := by
      unfold effectiveMaxRetries; split <;> omega
    exact Nat.le_trans h hle
  · intro hfail hdec hrd
    simp [runTask, runTaskLoop, hfail, hdec, hrd]
  · intro hro hfail
    have he : effectiveMaxRetries cfg = 0 := by simp [effectiveMaxRetries, hro]
    simp [runTask, runTaskLoop, hfail, hro, he]
  · intro hro hrd hall
    have he : effectiveMaxRetries cfg = cfg.max_retries := by
      simp [effectiveMaxRetries, hro]
    have := runTaskLoop_always_decline cfg handler hro hrd hall
      (effectiveMaxRetries cfg + 1) 0 (Nat.zero_le _) (by omega)
    rw [runTask, this, he]
  · intro k hro hk hpre hsucc
    have he : effectiveMaxRetries cfg = cfg.max_retries := by
      simp [effectiveMaxRetries, hro]
    exact runTaskLoop_success_at cfg handler k hro (by omega) hpre hsucc
      (effectiveMaxRetries cfg + 1) 0 (Nat.zero_le _) (by omega)

/-- Witness for `run_task_retry_policy`: with both retry flags set,
`max_retries = 3` and an always-declining handler, the task ends declined with
retry count 3 (the spec scenario the amended clause D describes). -/
theorem run_task_retry_policy_witness :
    runTask ⟨true, true, 3⟩ (fun _ => ⟨false, some "Card declined"⟩) =
      (TaskStatus.declined, 3) :=
  (run_task_retry_policy ⟨true, true, 3⟩
      (fun _ => ⟨false, some "Card declined"⟩)).2.2.2.1
    rfl rfl (fun _ => ⟨rfl, by decide⟩)

/-- Counterexample to claim C1 as stated: with `retry_on_decline=true`,
`retry_on_error=false` and `max_retries=3`, an always-declining handler is
invoked exactly once and never retried (final retry count 0, not 3), because
line 219 of task.py collapses the retry budget to 0 when
`retry_on_error=false`. -/
theorem run_task_decline_retry_counterexample :
    invocationCount ⟨true, false, 3⟩ (fun _ => ⟨false, some "Card declined"⟩) = 1 ∧
    runTask ⟨true, false, 3⟩ (fun _ => ⟨false, some "Card declined"⟩) =
      (TaskStatus.declined, 0) ∧
    (runTask ⟨true, false, 3⟩ (fun _ => ⟨false, some "Card declined"⟩)).2 ≠
      (3 : Nat) := by
  refine ⟨by decide, by decide, by decide⟩

/-! ## Keyword matcher — `phantom copy/monitors/keywords.py`, `KeywordMatcher.matches`

Python sets are modelled as lists (all the operations `matches` performs on
them — any / all / count — are order-independent), compiled regexes as their
matching functions `String → Bool` (`pattern.search(text)`), and float
confidences as exact rationals. -/

structure KeywordSet where
  positive : List String
  negative : List String
  required : List String
  sku_patterns : List String
  regex_patterns : List (String → Bool)

/-- `combined_text` of `matches`: the lower-cased title, with the lower-cased
description appended after a space when the description is truthy. -/
def combinedText (title : String) (description : Option String) : String :=
  match description with
  | some d => if d = "" then lowerStr title else lowerStr title ++ " " ++ lowerStr d
  | none => lowerStr title

/-- The SKU test of `matches`: `if sku and self.keywords.sku_patterns:` then
for each pattern, `pattern in sku_upper or sku_upper in pattern`.  An absent
or empty SKU is falsy and never matches. -/
def skuHit (ks : KeywordSet) (sku : Option String) : Bool :=
  match sku with
  | none => false
  | some s =>
    (decide (s ≠ "")) && !ks.sku_patterns.isEmpty &&
      ks.sku_patterns.any (fun pat =>
        substrOf pat (upperStr s) || substrOf (upperStr s) pat)

/-- `KeywordMatcher.matches`, translated clause by clause from keywords.py
lines 113–165.  Returns `(matched, confidence)`. -/
def kwMatches (ks : KeywordSet) (title : String) (sku : Option String)
    (description : Option String) : Bool × ℚ :=
  let combined := combinedText title description
  if skuHit ks sku then (true, 1)
  else if ks.negative.any (fun neg => substrOf neg combined) then (false, 0)
  else if ks.required.any (fun req => !substrOf req combined) then (false, 0)
  else if ks.regex_patterns.any (fun p => p combined) then (true, 9/10)
  else if !ks.positive.isEmpty then
    let matched := (ks.positive.filter (fun pos => substrOf pos combined)).length
    if matched = 0 then (false, 0)
    else (true, min 1 (1/2 + ((matched : ℚ) / (ks.positive.length : ℚ)) * (1/2)))
  else if ks.positive.isEmpty && ks.sku_patterns.isEmpty then (true, 1/2)
  else (false, 0)

/-- The matcher as claim C2 states it: the prioritized cascade
SKU → negative → required → regex → positive count with confidence
`min(1.0, 0.5 + 0.5·matched/total)` → pure monitor mode `(true, 0.5)`,
else `(false, 0.0)`. -/
def kwMatchesSpec (ks : KeywordSet) (title : String) (sku : Option String)
    (description : Option String) : Bool × ℚ :=
  let combined := combinedText title description
  if skuHit ks sku then (true, 1)
  else if ks.negative.any (fun neg => substrOf neg combined) then (false, 0)
  else if ks.required.any (fun req => !substrOf req combined) then (false, 0)
  else if ks.regex_patterns.any (fun p => p combined) then (true, 9/10)
  else if !ks.positive.isEmpty then
    if ks.positive.countP (fun pos => substrOf pos combined) = 0 then (false, 0)
    else (true, min 1 (1/2 + (1/2) *
      ((ks.positive.countP (fun pos => substrOf pos combined) : ℚ) /
        (ks.positive.length : ℚ))))
  else if ks.positive.isEmpty && ks.sku_patterns.isEmpty then (true, 1/2)
  else (false, 0)

/-- Claim C2 (confirmed): `matches` evaluates exactly the claimed cascade —
`(true, 1.0)` on a SKU pattern hit (substring either direction against the
upper-cased SKU), `(false, 0.0)` on a negative keyword or a missing required
keyword, `(true, 0.9)` on a regex hit, then the positive-keyword count with
confidence `min(1.0, 0.5 + 0.5·matched/total)`, and `(true, 0.5)` when
neither positives nor SKU patterns are specified. -/
theorem keyword_matches_eq_spec (ks : KeywordSet) (title : String)
    (sku : Option String) (description : Option String) :
    kwMatches ks title sku description = kwMatchesSpec ks title sku description := by
  unfold kwMatches kwMatchesSpec
  simp only [List.countP_eq_length_filter, mul_comm]

/-! ## Webhook service — `phantom/services/webhook_service.py`

`WebhookService.receive` runs verify → rate-limit → dedupe.  JSON payloads
are modelled by an inductive `Json`; `json.dumps(payload, separators=(",",
":"), sort_keys=True)` is implemented below (Python's default
`ensure_ascii=True` escaping).  HMAC-SHA256 is a library primitive; it enters
the model as an abstract parameter `mac : secret → body → lowercase hex
digest`, which every theorem quantifies over. -/

inductive Json where
  | null
  | bool (b : Bool)
  | num (n : Int)
  | str (s : String)
  | arr (xs : List Json)
  | obj (kvs : List (String × Json))

/-- Lowercase hex digit, as Python's `json` module emits in escapes. -/
def hexDigit (n : Nat) : Char :=
  if n < 10 then Char.ofNat (48 + n) else Char.ofNat (87 + n)

/-- A `\uXXXX` escape for a code unit. -/
def uEscape (n : Nat) : String :=
  "\\u" ++ ⟨[hexDigit (n / 4096 % 16), hexDigit (n / 256 % 16),
             hexDigit (n / 16 % 16), hexDigit (n % 16)]⟩

/-- Python `json.dumps` escaping of one character (`ensure_ascii=True`):
quote and backslash escaped, the named control escapes, other control and all
non-ASCII characters as `\uXXXX` (surrogate pairs above the BMP). -/
def escapeChar (c : Char) : String :=
  if c = '"' then "\\\""
  else if c = '\\' then "\\\\"
  else if c = '\n' then "\\n"
  else if c = '\r' then "\\r"
  else if c = '\t' then "\\t"
  else if c.toNat = 8 then "\\b"
  else if c.toNat = 12 then "\\f"
  else if c.toNat < 32 then uEscape c.toNat
  else if c.toNat < 127 then ⟨[c]⟩
  else if c.toNat < 65536 then uEscape c.toNat
  else
    uEscape (55296 + (c.toNat - 65536) / 1024) ++
      uEscape (56320 + (c.toNat - 65536) % 1024)

def escapeStr (s : String) : String :=
  (s.data.map escapeChar).foldr (· ++ ·) ""

/-- Stable insertion of a (key, rendered item) pair into a list ascending by
key. -/
def insertByKey (x : String × String) :
    List (String × String) → List (String × String)
  | [] => [x]
  | y :: ys => if strLe x.1 y.1 then x :: y :: ys else y :: insertByKey x ys

/-- `sort_keys=True`: object items sorted by key.  Keys are unique in a
Python dict, so any comparison sort yields this list; serializing the items
and then sorting the (key, rendered item) pairs by key gives the same result
as sorting the dict items first. -/
def sortByKey (l : List (String × String)) : List (String × String) :=
  l.foldr insertByKey []

mutual

/-- `json.dumps(payload, separators=(",", ":"), sort_keys=True)`. -/
def canonicalJson : Json → String
  | .null => "null"
  | .bool b => if b then "true" else "false"
  | .num n => toString n
  | .str s => "\"" ++ escapeStr s ++ "\""
  | .arr xs => "[" ++ joinWith "," (canonicalArr xs) ++ "]"
  | .obj kvs =>
    "\x7b" ++ joinWith "," ((sortByKey (canonicalObj kvs)).map (·.2)) ++ "\x7d"

def canonicalArr : List Json → List String
  | [] => []
  | x :: xs => canonicalJson x :: canonicalArr xs

def canonicalObj : List (String × Json) → List (String × String)
  | [] => []
  | (k, v) :: kvs =>
    (k, "\"" ++ escapeStr k ++ "\":" ++ canonicalJson v) :: canonicalObj kvs

end

/-! Association-list primitives modelling Python dict operations. -/

def alistGet? {α : Type} (m : List (String × α)) (k : String) : Option α :=
  match m with
  | [] => none
  | (k2, v) :: rest => if k2 = k then some v else alistGet? rest k

def alistSet {α : Type} (m : List (String × α)) (k : String) (v : α) :
    List (String × α) :=
  match m with
  | [] => [(k, v)]
  | (k2, v2) :: rest =>
    if k2 = k then (k, v) :: rest else (k2, v2) :: alistSet rest k v

/-- `WebhookConfig` (phantom/domain/models.py); `allowed_ips` is never read
by the verified pipeline and is omitted. -/
structure WebhookConfig where
  hmac_secret : Option String := none
  rate_limit_per_minute : Nat := 60
deriving DecidableEq, Repr

inductive WebhookError where
  | unauthorized (msg : String)
  | rateLimited (retry_after : Int)
  | duplicate (key : String)
  | indexError
deriving DecidableEq, Repr

/-- `WebhookService.verify_signature`: canonical body, expected digest,
`hmac.compare_digest(f"sha256={expected}", signature)` (constant-time string
equality — functionally, equality). -/
def verifySignature (mac : String → String → String) (payload : Json)
    (signature : String) (secret : String) : Bool :=
  ("sha256=" ++ mac secret (canonicalJson payload)) == signature

/-- Stage 1 of `receive` (lines 129–136): HMAC verification, performed only
when the source has a config with a truthy `hmac_secret`; a falsy (absent or
empty) signature raises Missing, a failed verification raises Invalid. -/
def hmacStage (mac : String → String → String) (config : Option WebhookConfig)
    (payload : Json) (signature : Option String) : Option WebhookError :=
  match config with
  | none => none
  | some cfg =>
    match cfg.hmac_secret with
    | none => none
    | some secret =>
      if secret = "" then none
      else
        match signature with
        | none => some (.unauthorized "Missing webhook signature")
        | some sig =>
          if sig = "" then some (.unauthorized "Missing webhook signature")
          else if verifySignature mac payload sig secret then none
          else some (.unauthorized "Invalid webhook signature")

/-- Outcome of `SlidingWindowRateLimiter.check` for one source: either the
request is admitted (bucket = trimmed entries plus the new timestamp), or it
is rejected carrying `retry_after` (bucket = trimmed entries, which the code
stores before raising).  `indexError` is `bucket[0]` on an empty list, which
is reachable only when `max_requests = 0`. -/
inductive RlOutcome where
  | allowed (bucket : List ℚ)
  | rejected (retry_after : Int) (bucket : List ℚ)
  | indexError (bucket : List ℚ)
deriving DecidableEq, Repr

/-- `SlidingWindowRateLimiter.check` (lines 60–75).  Python `int(x)` on the
positive float `bucket[0] - cutoff` truncates, i.e. floors. -/
def rlCheck (maxR : Nat) (window now : ℚ) (bucket : List ℚ) : RlOutcome :=
  let cutoff := now - window
  let trimmed := bucket.filter (fun t => decide (cutoff < t))
  if maxR ≤ trimmed.length then
    match trimmed with
    | [] => .indexError trimmed
    | t0 :: _ => .rejected (max (⌊t0 - cutoff⌋ + 1) 1) trimmed
  else .allowed (trimmed ++ [now])

/-- The mutable state of a `WebhookService` read by `receive` (the event log
and handler fan-out do not influence acceptance and are omitted). -/
structure WebhookState where
  configs : List (String × WebhookConfig)
  max_requests : Nat
  window_seconds : ℚ
  buckets : List (String × List ℚ)
  seen : List (String × ℚ)
  ttl : ℚ

/-- `WebhookService.receive`: verify → rate-limit → dedupe, returning the
error raised (if any) together with the state as mutated up to that point
(the rate limiter stores the trimmed bucket before raising, and the
idempotency store evicts expired keys before raising). -/
def receive (mac : String → String → String) (st : WebhookState) (now : ℚ)
    (source : String) (payload : Json) (signature : Option String)
    (idemKey : Option String) : Option WebhookError × WebhookState :=
  match hmacStage mac (alistGet? st.configs source) payload signature with
  | some e => (some e, st)
  | none =>
    match rlCheck st.max_requests st.window_seconds now
        ((alistGet? st.buckets source).getD []) with
    | .indexError b => (some .indexError, { st with buckets := alistSet st.buckets source b })
    | .rejected ra b => (some (.rateLimited ra), { st with buckets := alistSet st.buckets source b })
    | .allowed b =>
      match idemKey with
      | none => (none, { st with buckets := alistSet st.buckets source b })
      | some k =>
        if k = "" then (none, { st with buckets := alistSet st.buckets source b })
        else
          match alistGet? (st.seen.filter (fun kv => decide (now - st.ttl < kv.2))) k with
          | some _ =>
            (some (.duplicate k),
              { st with buckets := alistSet st.buckets source b,
                        seen := st.seen.filter (fun kv => decide (now - st.ttl < kv.2)) })
          | none =>
            (none,
              { st with buckets := alistSet st.buckets source b,
                        seen := alistSet
                          (st.seen.filter (fun kv => decide (now - st.ttl < kv.2)))
                          k now })

lemma sha_pre_ne_empty (x : String) : "sha256=" ++ x ≠ "" := by
  intro h
  have h2 := congrArg String.length h
  rw [String.length_append] at h2
  have h7 : ("sha256=").length = 7 := by decide
  have h0 : ("" : String).length = 0 := by decide
  omega

lemma str_append_cancel (p x y : String) (h : p ++ x = p ++ y) : x = y := by
  have hd := congrArg String.data h
  simp only [String.data_append] at hd
  have h2 := List.append_cancel_left hd
  cases x with
  | mk dx =>
    cases y with
    | mk dy => exact congrArg String.mk h2

/-- The source has no usable HMAC secret: no config, secret `None`, or the
falsy empty secret. -/
def secretMissing (c : Option WebhookConfig) : Prop :=
  match c with
  | none => True
  | some cfg => cfg.hmac_secret = none ∨ cfg.hmac_secret = some ""

lemma hmacStage_of_secretMissing (mac : String → String → String)
    (c : Option WebhookConfig) (payload : Json) (signature : Option String)
    (h : secretMissing c) : hmacStage mac c payload signature = none := by
  match c with
  | none => rfl
  | some cfg =>
    rcases h with h1 | h1 <;> simp [hmacStage, h1]

/-- Claim C3 (confirmed): with a configured non-empty secret, stage 1 of
`receive` accepts exactly the signature `"sha256=" ++ HMAC-SHA256-hex(secret,
canonical body)`; an absent (or falsy empty) signature is rejected as
unauthorized, and any mutation of the payload or secret that changes the MAC
value (which is what HMAC collision resistance provides) turns the previously
valid signature into an unauthorized rejection. -/
theorem webhook_hmac_acceptance (mac : String → String → String)
    (rl : Nat) (secret : String) (hs : secret ≠ "") (payload : Json) :
    (∀ signature : Option String,
      (hmacStage mac (some ⟨some secret, rl⟩) payload signature = none ↔
        signature = some ("sha256=" ++ mac secret (canonicalJson payload)))) ∧
    hmacStage mac (some ⟨some secret, rl⟩) payload none =
      some (.unauthorized "Missing webhook signature") ∧
    hmacStage mac (some ⟨some secret, rl⟩) payload (some "") =
      some (.unauthorized "Missing webhook signature") ∧
    (∀ (payload2 : Json) (secret2 : String), secret2 ≠ "" →
      mac secret2 (canonicalJson payload2) ≠ mac secret (canonicalJson payload) →
      hmacStage mac (some ⟨some secret2, rl⟩) payload2
        (some ("sha256=" ++ mac secret (canonicalJson payload))) =
        some (.unauthorized "Invalid webhook signature")) := by
  refine ⟨?_, ?_, ?_, ?_⟩
  · intro signature
    match signature with
    | none => simp [hmacStage, hs]
    | some sig =>
      by_cases hsig : sig = ""
      · subst hsig
        simp only [hmacStage, if_neg hs, if_pos rfl, Option.some.injEq]
        constructor
        · intro h; exact absurd h (by simp)
        · intro h
          exact absurd h.symm (sha_pre_ne_empty _)
      · by_cases heq : "sha256=" ++ mac secret (canonicalJson payload) = sig
        · simp [hmacStage, if_neg hs, if_neg hsig, verifySignature, heq]
        · simp only [hmacStage, if_neg hs, if_neg hsig, verifySignature,
            beq_iff_eq, if_neg heq, Option.some.injEq]
          constructor
          · intro h; exact absurd h (by simp)
          · intro h; exact absurd h.symm heq
  · simp [hmacStage, hs]
  · simp [hmacStage, hs]
  · intro payload2 secret2 hs2 hne
    simp only [hmacStage, if_neg hs2, if_neg (sha_pre_ne_empty _),
      verifySignature, beq_iff_eq]
    rw [if_neg]
    intro h
    exact hne (str_append_cancel _ _ _ h)

/-- Witness for `webhook_hmac_acceptance`: a concrete MAC function, secret
and payload; the matching signature is accepted. -/
theorem webhook_hmac_acceptance_witness :
    hmacStage (fun s b => s ++ "|" ++ b)
      (some ⟨some "s", 60⟩)
      (Json.obj [("event_type", Json.str "test"), ("value", Json.num 42)])
      (some ("sha256=" ++ ((fun (s b : String) => s ++ "|" ++ b) "s"
        (canonicalJson
          (Json.obj [("event_type", Json.str "test"), ("value", Json.num 42)]))))) =
      none :=
  ((webhook_hmac_acceptance (fun s b => s ++ "|" ++ b) 60 "s" (by decide)
      (Json.obj [("event_type", Json.str "test"), ("value", Json.num 42)])).1
    _).mpr rfl

/-- Claim C10 (confirmed): for a source with no config or no usable secret,
`receive` performs no signature verification — its outcome is independent of
the signature argument and is never an unauthorized rejection. -/
theorem webhook_receive_no_secret_no_auth (mac : String → String → String)
    (st : WebhookState) (now : ℚ) (source : String) (payload : Json)
    (idemKey : Option String)
    (h : secretMissing (alistGet? st.configs source)) :
    (∀ sig1 sig2 : Option String,
      receive mac st now source payload sig1 idemKey =
        receive mac st now source payload sig2 idemKey) ∧
    (∀ (sig : Option String) (msg : String),
      (receive mac st now source payload sig idemKey).1 ≠
        some (.unauthorized msg)) := by
  have hstage := hmacStage_of_secretMissing mac (alistGet? st.configs source)
    payload
  constructor
  · intro sig1 sig2
    unfold receive
    rw [hstage sig1 h, hstage sig2 h]
  · intro sig msg
    unfold receive
    rw [hstage sig h]
    rcases hrl : rlCheck st.max_requests st.window_seconds now
        ((alistGet? st.buckets source).getD []) with b | ⟨ra, b⟩ | b
    · rcases idemKey with _ | k
      · simp [hrl]
      · by_cases hk : k = ""
        · simp [hrl, hk]
        · rcases hseen : alistGet?
              (st.seen.filter (fun kv => decide (now - st.ttl < kv.2))) k with _ | v
          · simp [hrl, hk, hseen]
          · simp [hrl, hk, hseen]
    · simp [hrl]
    · simp [hrl]

/-- Witness for `webhook_receive_no_secret_no_auth`: an unconfigured source
with an arbitrary (wrong) signature is not rejected as unauthorized. -/
theorem webhook_receive_no_secret_no_auth_witness :
    (receive (fun s b => s ++ "|" ++ b)
        ⟨[], 60, 60, [], [], 3600⟩ 0 "shopify" Json.null (some "sha256=junk")
        none).1 ≠
      some (.unauthorized "Invalid webhook signature") :=
  (webhook_receive_no_secret_no_auth (fun s b => s ++ "|" ++ b)
      ⟨[], 60, 60, [], [], 3600⟩ 0 "shopify" Json.null none
      trivial).2
    (some "sha256=junk") "Invalid webhook signature"

lemma alistGet_set_ne {α : Type} (m : List (String × α)) (k k2 : String)
    (v : α) (h : k ≠ k2) :
    alistGet? (alistSet m k v) k2 = alistGet? m k2 := by
  induction m with
  | nil => simp [alistSet, alistGet?, h]
  | cons kv rest ih =>
    rcases kv with ⟨k3, v3⟩
    by_cases h3 : k3 = k
    · subst h3
      simp [alistSet, alistGet?, h]
    · simp [alistSet, alistGet?, h3, ih]

/-- `receive` on one source never touches another source's rate bucket. -/
lemma receive_buckets_other (mac : String → String → String)
    (st : WebhookState) (now : ℚ) (source : String) (payload : Json)
    (sig idemKey : Option String) (s2 : String) (h : s2 ≠ source) :
    alistGet? ((receive mac st now source payload sig idemKey).2.buckets) s2 =
      alistGet? st.buckets s2 := by
  unfold receive
  rcases hh : hmacStage mac (alistGet? st.configs source) payload sig with _ | e
  · rcases hrl : rlCheck st.max_requests st.window_seconds now
        ((alistGet? st.buckets source).getD []) with b | ⟨ra, b⟩ | b
    · rcases idemKey with _ | k
      · simp [hrl, alistGet_set_ne _ _ _ _ (Ne.symm h)]
      · by_cases hk : k = ""
        · simp [hrl, hk, alistGet_set_ne _ _ _ _ (Ne.symm h)]
        · rcases hseen : alistGet?
              (st.seen.filter (fun kv => decide (now - st.ttl < kv.2))) k with _ | v
          · simp [hrl, hk, hseen, alistGet_set_ne _ _ _ _ (Ne.symm h)]
          · simp [hrl, hk, hseen, alistGet_set_ne _ _ _ _ (Ne.symm h)]
    · simp [hrl, alistGet_set_ne _ _ _ _ (Ne.symm h)]
    · simp [hrl, alistGet_set_ne _ _ _ _ (Ne.symm h)]
  · simp [hh]

/-- Counterexample to claim C4 as stated: the code computes `retry_after` with
Python `int()` truncation (a floor), not a ceiling.  With `max=3`,
`window=60`, timestamps `[40.5, 50, 60]` and `now=100`, the oldest in-window
entry is 0.5s past the cutoff: the code rejects with `retry_after = 1`, while
the claimed formula `ceil(oldest − cutoff) + 1` gives 2. -/
theorem rate_limiter_retry_after_counterexample :
    rlCheck 3 60 100 [81/2, 50, 60] = .rejected 1 [81/2, 50, 60] ∧
    ⌈(81/2 : ℚ) - (100 - 60)⌉ + 1 = (2 : Int) ∧ (1 : Int) ≠ 2 := by
  refine ⟨?_, ?_, by decide⟩
  · have hfl : List.filter (fun t => decide ((100:ℚ) - 60 < t)) [81/2, 50, 60] =
        [81/2, 50, 60] := by norm_num
    have h0 : ⌊(81/2:ℚ) - (100 - 60)⌋ = 0 := by
      rw [Int.floor_eq_iff] <;> norm_num
    simp [rlCheck, hfl, h0]
  · have h1 : ⌈(81/2:ℚ) - (100 - 60)⌉ = 1 := by
      rw [Int.ceil_eq_iff] <;> norm_num
    rw [h1]
    decide

/-- Claim C4 (amended): after trimming entries at or before `now − window`, a
submission is rejected iff the bucket already holds at least `max_requests`
surviving timestamps, and the rejection carries
`retry_after = max(1, ⌊oldest_in_window − cutoff⌋ + 1)` — `int()` truncation
plus one, not a ceiling plus one — which is always ≥ 1.  With `max=3`,
`window=60`, four strictly ordered calls inside one window: the first three
are admitted and the fourth rejects with `retry_after ∈ [1, 60]`.  Distinct
sources are independent: `receive` on one source leaves every other source's
bucket unchanged. -/
theorem rate_limiter_sliding_window (maxR : Nat) (window now : ℚ)
    (bucket : List ℚ) (hmax : 0 < maxR) :
    (∀ t0 rest, bucket.filter (fun t => decide (now - window < t)) = t0 :: rest →
      maxR ≤ (t0 :: rest).length →
      rlCheck maxR window now bucket =
        .rejected (max (⌊t0 - (now - window)⌋ + 1) 1) (t0 :: rest) ∧
      1 ≤ max (⌊t0 - (now - window)⌋ + 1) 1) ∧
    ((bucket.filter (fun t => decide (now - window < t))).length < maxR →
      rlCheck maxR window now bucket =
        .allowed (bucket.filter (fun t => decide (now - window < t)) ++ [now])) ∧
    (∀ b2, rlCheck maxR window now bucket ≠ .indexError b2) ∧
    (∀ t1 t2 t3 t4 : ℚ, t4 - 60 < t1 → t1 ≤ t2 → t2 ≤ t3 → t3 < t4 →
      rlCheck 3 60 t1 [] = .allowed [t1] ∧
      rlCheck 3 60 t2 [t1] = .allowed [t1, t2] ∧
      rlCheck 3 60 t3 [t1, t2] = .allowed [t1, t2, t3] ∧
      ∃ ra : Int, rlCheck 3 60 t4 [t1, t2, t3] = .rejected ra [t1, t2, t3] ∧
        1 ≤ ra ∧ ra ≤ 60) ∧
    (∀ (mac : String → String → String) (st : WebhookState) (now2 : ℚ)
      (source : String) (payload : Json) (sig idemKey : Option String)
      (s2 : String), s2 ≠ source →
      alistGet? ((receive mac st now2 source payload sig idemKey).2.buckets) s2 =
        alistGet? st.buckets s2) := by
  refine ⟨?_, ?_, ?_, ?_, ?_⟩
  · intro t0 rest hf hlen
    constructor
    · simp only [rlCheck, hf]
      rw [if_pos hlen]
    · exact le_max_right _ _
  · intro hlen
    simp only [rlCheck]
    rw [if_neg (not_le.mpr hlen)]
  · intro b2 hcon
    by_cases hle : maxR ≤ (bucket.filter (fun t => decide (now - window < t))).length
    · rcases hf : bucket.filter (fun t => decide (now - window < t)) with _ | ⟨t0, rest⟩
      · rw [hf] at hle
        simp at hle
        omega
      · rw [hf] at hle
        simp only [rlCheck, hf] at hcon
        rw [if_pos hle] at hcon
        exact absurd hcon (by simp)
    · simp only [rlCheck] at hcon
      rw [if_neg hle] at hcon
      exact absurd hcon (by simp)
  · intro t1 t2 t3 t4 hw h12 h23 h34
    have h21 : t2 - 60 < t1 := by linarith
    have h31 : t3 - 60 < t1 := by linarith
    have h32 : t3 - 60 < t2 := by linarith
    have h41 : t4 - 60 < t1 := by linarith
    have h42 : t4 - 60 < t2 := by linarith
    have h43 : t4 - 60 < t3 := by linarith
    have hf2 : List.filter (fun t => decide (t2 - 60 < t)) [t1] = [t1] := by
      simp [h21]
    have hf3 : List.filter (fun t => decide (t3 - 60 < t)) [t1, t2] = [t1, t2] := by
      simp [h31, h32]
    have hf4 : List.filter (fun t => decide (t4 - 60 < t)) [t1, t2, t3] =
        [t1, t2, t3] := by
      simp [h41, h42, h43]
    refine ⟨by simp [rlCheck], ?_, ?_, ?_⟩
    · simp [rlCheck, hf2]
    · simp [rlCheck, hf3]
    · refine ⟨max (⌊t1 - (t4 - 60)⌋ + 1) 1, ?_, le_max_right _ _, ?_⟩
      · simp [rlCheck, hf4]
      · have hlt : ⌊t1 - (t4 - 60)⌋ < 60 := by
          rw [Int.floor_lt]
          push_cast
          linarith
        omega
  · intro mac st now2 source payload sig idemKey s2 h
    exact receive_buckets_other mac st now2 source payload sig idemKey s2 h

/-- Witness for `rate_limiter_sliding_window`: the first call on an empty
bucket is admitted and stores its timestamp. -/
theorem rate_limiter_sliding_window_witness :
    rlCheck 3 60 100 [] = RlOutcome.allowed [100] := by
  simpa using (rate_limiter_sliding_window 3 60 100 [] (by decide)).2.1
    (by decide)

/-! ## Monitor duplicate suppression — `phantom copy/monitors/base.py`,
`BaseMonitor._is_new_product`

`_found_products` is a dict keyed by the full fingerprint string
`url + ':' + ','.join(sorted(sizes))`; only `url` and `sizes_available` of
`ProductInfo` are read by `_is_new_product`, the other fields are omitted. -/

structure ProductInfo where
  url : String
  sizes_available : List String
deriving DecidableEq, Repr

/-- The fingerprint `f"{product.url}:{','.join(sorted(product.sizes_available))}"`. -/
def productKey (p : ProductInfo) : String :=
  p.url ++ ":" ++ joinWith "," (sortStrings p.sizes_available)

/-- `BaseMonitor._is_new_product`: look the fingerprint up in the store; if
present and the stored product's size list equals the new one (as ordered
lists), it is not new; otherwise store it under the fingerprint and report it
as new.  Returns (is-new, updated store). -/
def isNewProduct (store : List (String × ProductInfo)) (p : ProductInfo) :
    Bool × List (String × ProductInfo) :=
  match alistGet? store (productKey p) with
  | some old =>
    if old.sizes_available = p.sizes_available then (false, store)
    else (true, alistSet store (productKey p) p)
  | none => (true, alistSet store (productKey p) p)

lemma alistGet_set_eq {α : Type} (m : List (String × α)) (k : String) (v : α) :
    alistGet? (alistSet m k v) k = some v := by
  induction m with
  | nil => simp [alistSet, alistGet?]
  | cons kv rest ih =>
    rcases kv with ⟨k3, v3⟩
    by_cases h3 : k3 = k
    · subst h3
      simp [alistSet, alistGet?]
    · simp [alistSet, alistGet?, h3, ih]

/-- Counterexample to claim C5 as stated: the same url observed with the same
size set in a different order has the same fingerprint, yet the second poll
still reports a new event, because the code compares the stored size list to
the new one order-sensitively (`old.sizes_available == product.sizes_available`)
even though the fingerprint sorts them. -/
theorem monitor_fingerprint_counterexample :
    productKey ⟨"https://shop/x", ["9", "8"]⟩ =
      productKey ⟨"https://shop/x", ["8", "9"]⟩ ∧
    (isNewProduct [] ⟨"https://shop/x", ["9", "8"]⟩).1 = true ∧
    (isNewProduct (isNewProduct [] ⟨"https://shop/x", ["9", "8"]⟩).2
      ⟨"https://shop/x", ["8", "9"]⟩).1 = true := by
  refine ⟨by decide, by decide, by decide⟩

/-- Claim C5 (amended): the dedup store is keyed by the full fingerprint (not
by url): a product is suppressed iff an entry with the same fingerprint
exists whose stored size list equals the new product's size list exactly (as
an ordered list); a suppressed poll leaves the store unchanged, a new product
is stored under its fingerprint, and re-observing the very same product on
the next poll is always suppressed. -/
theorem monitor_fingerprint_dedup (store : List (String × ProductInfo))
    (p : ProductInfo) :
    ((isNewProduct store p).1 = false ↔
      ∃ old, alistGet? store (productKey p) = some old ∧
        old.sizes_available = p.sizes_available) ∧
    ((isNewProduct store p).1 = false → (isNewProduct store p).2 = store) ∧
    ((isNewProduct store p).1 = true →
      (isNewProduct store p).2 = alistSet store (productKey p) p) ∧
    (isNewProduct (isNewProduct store p).2 p).1 = false := by
  rcases hold : alistGet? store (productKey p) with _ | old
  · refine ⟨?_, ?_, ?_, ?_⟩
    · simp [isNewProduct, hold]
    · simp [isNewProduct, hold]
    · simp [isNewProduct, hold]
    · simp [isNewProduct, hold, alistGet_set_eq]
  · by_cases hsz : old.sizes_available = p.sizes_available
    · refine ⟨?_, ?_, ?_, ?_⟩
      · simp only [isNewProduct, hold, if_pos hsz]
        exact ⟨fun _ => ⟨old, rfl, hsz⟩, fun _ => trivial⟩
      · simp [isNewProduct, hold, hsz]
      · simp [isNewProduct, hold, hsz]
      · simp [isNewProduct, hold, hsz]
    · refine ⟨?_, ?_, ?_, ?_⟩
      · simp only [isNewProduct, hold, if_neg hsz]
        constructor
        · intro h
          exact absurd h (by simp)
        · rintro ⟨old2, hold2, hsz2⟩
          cases hold2
          exact absurd hsz2 hsz

      · simp [isNewProduct, hold, hsz]
      · simp [isNewProduct, hold, hsz]
      · simp [isNewProduct, hold, hsz, alistGet_set_eq]

/-- Witness for `monitor_fingerprint_dedup`: re-observing the identical
product on the next poll is suppressed. -/
theorem monitor_fingerprint_dedup_witness :
    (isNewProduct (isNewProduct [] ⟨"https://shop/x", ["8", "9"]⟩).2
      ⟨"https://shop/x", ["8", "9"]⟩).1 = false :=
  (monitor_fingerprint_dedup [] ⟨"https://shop/x", ["8", "9"]⟩).2.2.2

/-! ## Proxy pool — `phantom copy/core/proxy.py`

Only the fields of `Proxy` that `get_proxy`, `record_success`,
`record_failure`, `test_proxy` and `_get_smart_proxy` read are modelled;
float statistics are exact rationals.  Network effects (`test_proxy`'s HTTP
round trip, `random.uniform` draws, `random.choice`) enter as explicit
parameters. -/

inductive ProxyStatus where
  | untested
  | good
  | slow
  | bad
  | banned
  | rate_limited
deriving DecidableEq, Repr

structure ProxyStats where
  success_count : Nat := 0
  failure_count : Nat := 0
  total_requests : Nat := 0
  avg_response_time : ℚ := 0
  last_response_time : ℚ := 0
  last_used : ℚ := 0
  last_tested : ℚ := 0
  consecutive_failures : Nat := 0
  ban_count : Nat := 0
  sites_banned : List String := []
deriving DecidableEq, Repr

structure Proxy where
  id : String
  status : ProxyStatus := .untested
  stats : ProxyStats := {}
deriving DecidableEq, Repr

/-- `Proxy.success_rate`: 0.0 when no requests were made. -/
def successRate (p : Proxy) : ℚ :=
  if p.stats.total_requests = 0 then 0
  else (p.stats.success_count : ℚ) / (p.stats.total_requests : ℚ)

/-- `ProxyManager.record_success` restricted to the proxy it mutates. -/
def recordSuccess (now rt : ℚ) (p : Proxy) : Proxy :=
  let s := p.stats
  let s1 : ProxyStats :=
    { s with success_count := s.success_count + 1,
             total_requests := s.total_requests + 1,
             consecutive_failures := 0,
             last_response_time := rt,
             last_used := now,
             avg_response_time :=
               if s.avg_response_time = 0 then rt
               else s.avg_response_time * (8/10) + rt * (2/10) }
  { p with stats := s1,
           status :=
             if p.status = .untested ∨ p.status = .slow then .good
             else p.status }

/-- `ProxyManager.record_failure` restricted to the proxy it mutates
(`config.proxy.ban_threshold` passed explicitly; the manager-level per-site
ban registry and `auto_remove_bad` removal do not change any status). -/
def recordFailure (now : ℚ) (site : Option String) (isBan : Bool)
    (banThreshold : Nat) (p : Proxy) : Proxy :=
  let s := p.stats
  let s1 : ProxyStats :=
    { s with failure_count := s.failure_count + 1,
             total_requests := s.total_requests + 1,
             consecutive_failures := s.consecutive_failures + 1,
             last_used := now }
  if isBan then
    let s2 : ProxyStats :=
      { s1 with ban_count := s1.ban_count + 1,
                sites_banned :=
                  match site with
                  | some s3 =>
                    if s3 ∈ s1.sites_banned then s1.sites_banned
                    else s1.sites_banned ++ [s3]
                  | none => s1.sites_banned }
    { p with stats := s2,
             status := if 3 ≤ s2.ban_count then .banned else p.status }
  else
    { p with stats := s1,
             status :=
               if banThreshold ≤ s1.consecutive_failures then .bad
               else p.status }

/-- The observable outcome of `test_proxy`'s HTTP request: a response with a
status code and elapsed time in ms, or an exception. -/
inductive TestOutcome where
  | response (status_code : Nat) (elapsed_ms : ℚ)
  | failure
deriving DecidableEq, Repr

/-- `ProxyManager.test_proxy`: a 200 response sets status to `good` (fast) or
`slow` (≥ 2000 ms) unconditionally — whatever the previous status was; any
other code or an exception sets `bad`.  Returns the updated proxy and the
boolean result. -/
def testProxy (now : ℚ) (outcome : TestOutcome) (p : Proxy) : Proxy × Bool :=
  match outcome with
  | .response code elapsed =>
    if code = 200 then
      ({ p with status := if elapsed < 2000 then .good else .slow,
                stats := { p.stats with last_tested := now,
                                        avg_response_time := elapsed } }, true)
    else ({ p with status := .bad }, false)
  | .failure => ({ p with status := .bad }, false)

/-- A telemetry operation on one proxy: `RecordSuccess` or `RecordFailure`
(`GetProxy` and `Add` never write a status and are identities here). -/
inductive TelemetryOp where
  | success (now rt : ℚ)
  | failure (now : ℚ) (site : Option String) (isBan : Bool) (banThreshold : Nat)

def applyTelemetry (p : Proxy) : TelemetryOp → Proxy
  | .success now rt => recordSuccess now rt p
  | .failure now site isBan thr => recordFailure now site isBan thr p

def isDead (st : ProxyStatus) : Prop := st = .bad ∨ st = .banned

lemma recordSuccess_dead (now rt : ℚ) (p : Proxy) (h : isDead p.status) :
    isDead (recordSuccess now rt p).status := by
  rcases h with h | h <;> simp [recordSuccess, h, isDead]

lemma recordFailure_dead (now : ℚ) (site : Option String) (isBan : Bool)
    (thr : Nat) (p : Proxy) (h : isDead p.status) :
    isDead (recordFailure now site isBan thr p).status := by
  rcases h with h | h <;>
    · unfold recordFailure
      split
      · simp only [isDead]
        split
        · exact Or.inr rfl
        · simp [h]
      · simp only [isDead]
        split
        · exact Or.inl rfl
        · simp [h]

/-- Counterexample to claim C9 as stated: `test_proxy` (invoked on every
proxy by `test_all_proxies` / the health-check loop) overwrites the status
from the test outcome, so a `banned` proxy whose test returns HTTP 200 in
100 ms is promoted straight back to `good`. -/
theorem proxy_status_monotonicity_counterexample :
    (Proxy.mk "p1" .banned {}).status = .banned ∧
    (testProxy 0 (.response 200 100) (Proxy.mk "p1" .banned {})).1.status =
      .good := by
  constructor
  · rfl
  · norm_num [testProxy]

/-- Claim C9 (amended): under the telemetry operations `RecordSuccess` and
`RecordFailure` (and the non-mutating `Add`/`GetProxy`), statuses are
monotonic toward `bad`/`banned`: once a proxy is `bad` or `banned`, any
sequence of telemetry operations leaves it `bad` or `banned`.  Health
testing is the exception the counterexample exhibits: `test_proxy` resets
the status from the test outcome and can promote a `bad`/`banned` proxy to
`good` or `slow`. -/
theorem proxy_status_monotonicity (p : Proxy) (ops : List TelemetryOp)
    (h : isDead p.status) : isDead ((ops.foldl applyTelemetry p).status) := by
  induction ops generalizing p with
  | nil => exact h
  | cons op rest ih =>
    rcases op with ⟨now, rt⟩ | ⟨now, site, isBan, thr⟩
    · exact ih (recordSuccess now rt p) (recordSuccess_dead now rt p h)
    · exact ih (recordFailure now site isBan thr p)
        (recordFailure_dead now site isBan thr p h)

/-- Witness for `proxy_status_monotonicity`: a `bad` proxy fed one success
and one failure stays `bad`/`banned`. -/
theorem proxy_status_monotonicity_witness :
    isDead (([TelemetryOp.success 1 100,
              TelemetryOp.failure 2 none false 5].foldl applyTelemetry
      (Proxy.mk "p1" .bad {})).status) :=
  proxy_status_monotonicity (Proxy.mk "p1" .bad {})
    [TelemetryOp.success 1 100, TelemetryOp.failure 2 none false 5]
    (Or.inl rfl)

/-! ### `ProxyManager.get_proxy` candidate filtering (claim C6)

The pool state read by `get_proxy`: the proxy dict, the group lists and the
per-site ban registry.  The rotation-strategy dispatch at the end of
`get_proxy` (sticky / random / round-robin / fastest / least-used / smart)
always returns an element of the `available` list it is given; it enters the
model as a parameter `select` with exactly that contract. -/

structure PoolState where
  proxies : List (String × Proxy)
  groups : List (String × List String)
  banned_proxies : List (String × List String)

/-- `proxy_ids` of `get_proxy`: the group's id list when a truthy `group_id`
is given (missing group → `[]`), else all proxy ids. -/
def groupIdsOf (st : PoolState) (group_id : Option String) : List String :=
  match group_id with
  | some g => if g = "" then st.proxies.map (·.1) else (alistGet? st.groups g).getD []
  | none => st.proxies.map (·.1)

/-- `if site and pid in self._banned_proxies.get(site, set())`. -/
def siteBanned (st : PoolState) (site : Option String) (pid : String) : Bool :=
  match site with
  | some s2 =>
    if s2 = "" then false
    else ((alistGet? st.banned_proxies s2).getD []).contains pid
  | none => false

/-- The `available` list of `get_proxy` before fallback: proxies of the group
that exist, are neither `bad` nor `banned`, and are not banned for `site`. -/
def availableFiltered (st : PoolState) (ids : List String)
    (site : Option String) : List Proxy :=
  ids.filterMap (fun pid =>
    match alistGet? st.proxies pid with
    | none => none
    | some p =>
      if p.status = .bad ∨ p.status = .banned then none
      else if siteBanned st site pid then none
      else some p)

/-- The fallback list: `[self.proxies[pid] for pid in proxy_ids if pid in
self.proxies]`. -/
def availableUnfiltered (st : PoolState) (ids : List String) : List Proxy :=
  ids.filterMap (alistGet? st.proxies)

/-- `ProxyManager.get_proxy` (lines 214–275): empty group → `None`; filter
out bad/banned/site-banned; if that empties the list, fall back to the
unfiltered group; if still empty → `None`; otherwise the rotation strategy
(`select`) picks from the candidate list. -/
def getProxy (select : List Proxy → Option Proxy) (st : PoolState)
    (group_id site : Option String) : Option Proxy :=
  match groupIdsOf st group_id with
  | [] => none
  | pid :: rest =>
    match (if (availableFiltered st (pid :: rest) site).isEmpty
           then availableUnfiltered st (pid :: rest)
           else availableFiltered st (pid :: rest) site) with
    | [] => none
    | q :: qs => select (q :: qs)

lemma mem_availableFiltered_status (st : PoolState) (ids : List String)
    (site : Option String) (p : Proxy) (h : p ∈ availableFiltered st ids site) :
    p.status ≠ .bad ∧ p.status ≠ .banned := by
  rw [availableFiltered, List.mem_filterMap] at h
  rcases h with ⟨pid, _, hf⟩
  rcases hget : alistGet? st.proxies pid with _ | q
  · exact absurd hf (by simp [hget])
  · simp only [hget] at hf
    by_cases hbad : q.status = .bad ∨ q.status = .banned
    · rw [if_pos hbad] at hf
      cases hf
    · rw [if_neg hbad] at hf
      by_cases hsite : siteBanned st site pid
      · rw [if_pos hsite] at hf
        cases hf
      · rw [if_neg hsite, Option.some.injEq] at hf
        subst hf
        exact ⟨fun h1 => hbad (Or.inl h1), fun h1 => hbad (Or.inr h1)⟩

lemma availableUnfiltered_ne_nil (st : PoolState) (pid : String)
    (rest : List String)
    (hlive : ∀ q ∈ pid :: rest, (alistGet? st.proxies q).isSome) :
    availableUnfiltered st (pid :: rest) ≠ [] := by
  have h1 := hlive pid (List.mem_cons_self _ _)
  rcases hget : alistGet? st.proxies pid with _ | p
  · rw [hget] at h1
    cases h1
  · simp [availableUnfiltered, hget]

/-- Claim C6 (confirmed): as long as every id in the group list refers to a
live proxy (an invariant `add_proxy`/`remove_proxy` maintain) and the
rotation strategy picks from the list it is given, `get_proxy` (i) picks
from the filtered list when it is non-empty — and everything in that list
has status outside `{bad, banned}` and is not site-banned; (ii) falls back
to the unfiltered group list instead of returning `None` when filtering
empties the candidates; (iii) returns `None` exactly when the group is
empty. -/
theorem get_proxy_filtering (select : List Proxy → Option Proxy)
    (st : PoolState) (group_id site : Option String)
    (hsel : ∀ l p, select l = some p → p ∈ l)
    (hsome : ∀ l, l ≠ [] → (select l).isSome)
    (hlive : ∀ pid ∈ groupIdsOf st group_id, (alistGet? st.proxies pid).isSome) :
    (availableFiltered st (groupIdsOf st group_id) site ≠ [] →
      ∃ p, getProxy select st group_id site = some p ∧
        p ∈ availableFiltered st (groupIdsOf st group_id) site) ∧
    (∀ p, p ∈ availableFiltered st (groupIdsOf st group_id) site →
      p.status ≠ .bad ∧ p.status ≠ .banned ∧
      ∃ pid, alistGet? st.proxies pid = some p ∧ siteBanned st site pid = false) ∧
    (groupIdsOf st group_id ≠ [] →
      availableFiltered st (groupIdsOf st group_id) site = [] →
      getProxy select st group_id site =
        select (availableUnfiltered st (groupIdsOf st group_id)) ∧
      getProxy select st group_id site ≠ none) ∧
    (getProxy select st group_id site = none ↔ groupIdsOf st group_id = []) := by
  rcases hids : groupIdsOf st group_id with _ | ⟨pid, rest⟩
  · refine ⟨?_, ?_, ?_, ?_⟩
    · intro hne
      exact absurd rfl hne
    · intro p hp
      simp [availableFiltered] at hp
    · intro hne
      exact absurd rfl hne
    · simp [getProxy, hids]
  · have hlive2 : ∀ q ∈ pid :: rest, (alistGet? st.proxies q).isSome := by
      rw [← hids]; exact hlive
    have hunf := availableUnfiltered_ne_nil st pid rest hlive2
    refine ⟨?_, ?_, ?_, ?_⟩
    · intro hne
      rcases hcand : availableFiltered st (pid :: rest) site with _ | ⟨q, qs⟩
      · exact absurd hcand hne
      · have hisem : (availableFiltered st (pid :: rest) site).isEmpty = false := by
          simp [hcand]
        have hsel1 := hsome (q :: qs) (by simp)
        rcases hq : select (q :: qs) with _ | p
        · rw [hq] at hsel1
          cases hsel1
        · refine ⟨p, ?_, ?_⟩
          · simp only [getProxy, hids, hisem, Bool.false_eq_true, if_false, hcand]
            exact hq
          · exact hsel _ _ hq
    · intro p hp
      rcases mem_availableFiltered_status st (pid :: rest) site p hp with ⟨h1, h2⟩
      refine ⟨h1, h2, ?_⟩
      rw [availableFiltered, List.mem_filterMap] at hp
      rcases hp with ⟨pid2, _, hf⟩
      rcases hget : alistGet? st.proxies pid2 with _ | q
      · exact absurd hf (by simp [hget])
      · simp only [hget] at hf
        by_cases hbad : q.status = .bad ∨ q.status = .banned
        · rw [if_pos hbad] at hf
          cases hf
        · rw [if_neg hbad] at hf
          by_cases hsite : siteBanned st site pid2
          · rw [if_pos hsite] at hf
            cases hf
          · rw [if_neg hsite, Option.some.injEq] at hf
            subst hf
            exact ⟨pid2, hget, by simpa using hsite⟩
    · intro _ hempty
      have hisem : (availableFiltered st (pid :: rest) site).isEmpty = true := by
        simp [hempty]
      rcases hcand : availableUnfiltered st (pid :: rest) with _ | ⟨q, qs⟩
      · exact absurd hcand hunf
      · constructor
        · simp only [getProxy, hids, hisem, if_true, hcand]
        · simp only [getProxy, hids, hisem, if_true, hcand]
          have := hsome (q :: qs) (by simp)
          rcases hq : select (q :: qs) with _ | p
          · rw [hq] at this
            cases this
          · simp [hq]
    · have hne2 : getProxy select st group_id site ≠ none := by
        rcases hcand : availableFiltered st (pid :: rest) site with _ | ⟨q, qs⟩
        · rcases hcu : availableUnfiltered st (pid :: rest) with _ | ⟨q2, qs2⟩
          · exact absurd hcu hunf
          · have hval : getProxy select st group_id site = select (q2 :: qs2) := by
              simp [getProxy, hids, hcand, hcu]
            have hsome2 := hsome (q2 :: qs2) (by simp)
            rw [hval]
            intro hnone
            rw [hnone] at hsome2
            cases hsome2
        · have hval : getProxy select st group_id site = select (q :: qs) := by
            simp [getProxy, hids, hcand]
          have hsome2 := hsome (q :: qs) (by simp)
          rw [hval]
          intro hnone
          rw [hnone] at hsome2
          cases hsome2
      constructor
      · intro hnone
        exact absurd hnone hne2
      · intro hcon
        cases hcon

/-- Witness for `get_proxy_filtering`: a one-proxy group with a head-taking
strategy yields a proxy. -/
theorem get_proxy_filtering_witness :
    getProxy (fun l => l.head?)
      ⟨[("a", ⟨"a", .good, {}⟩)], [("g", ["a"])], []⟩ (some "g") none ≠ none :=
  fun hnone =>
    absurd
      ((get_proxy_filtering (fun l => l.head?)
          ⟨[("a", ⟨"a", .good, {}⟩)], [("g", ["a"])], []⟩ (some "g") none
          (fun l p h => by
            cases l with
            | nil => cases h
            | cons a t =>
              cases h
              exact List.mem_cons_self _ _)
          (fun l h => by
            cases l with
            | nil => exact absurd rfl h
            | cons a t => rfl)
          (by decide)).2.2.2.mp hnone)
      (by decide)

/-! ### `_get_smart_proxy` scoring (claim C7)

`random.uniform(0, 10)` is drawn once per candidate; the draw enters the
model as the second component of each `(proxy, draw)` pair.  The code sorts
the scored list descending (Python's sort is stable) and takes the first
element, which is the first proxy attaining the maximal score; `smartPick`
computes that argmax directly.  The float literal 166.67 is the exact
rational 16667/100. -/

/-- `score_proxy` as the code computes it: success-rate term, response-time
term (`max(0, 30 − avg/166.67)` when `avg > 0`, otherwise the flat 15 for
"unknown = average"), freshness term, failure penalty, uniform draw `u`. -/
def scoreProxy (now : ℚ) (p : Proxy) (u : ℚ) : ℚ :=
  successRate p * 40 +
    (if 0 < p.stats.avg_response_time
     then max 0 (30 - p.stats.avg_response_time / (16667/100))
     else 15) +
    (if 0 < p.stats.last_used
     then min 20 ((now - p.stats.last_used) / 3)
     else 20) -
    (p.stats.consecutive_failures : ℚ) * 10 + u

/-- The score formula exactly as claim C7 states it: the response-time term
is `max(0, 30 − avg_ms/166.67)` with no special case for an unmeasured
proxy. -/
def scoreClaim (now : ℚ) (p : Proxy) (u : ℚ) : ℚ :=
  40 * successRate p +
    max 0 (30 - p.stats.avg_response_time / (16667/100)) +
    (if 0 < p.stats.last_used
     then min 20 ((now - p.stats.last_used) / 3)
     else 20) +
    u - 10 * (p.stats.consecutive_failures : ℚ)

/-- The first element attaining the maximal value of `f`, as a left fold
(ties keep the earlier element, matching the head of a stable descending
sort). -/
def argmaxFirst {α : Type} (f : α → ℚ) (x : α) (xs : List α) : α :=
  xs.foldl (fun best y => if f best < f y then y else best) x

/-- `_get_smart_proxy`: the first candidate attaining the maximal code score
(= head of the stable descending sort). -/
def smartPick (now : ℚ) : List (Proxy × ℚ) → Option (Proxy × ℚ)
  | [] => none
  | x :: xs => some (argmaxFirst (fun pu => scoreProxy now pu.1 pu.2) x xs)

lemma argmaxFirst_mem {α : Type} (f : α → ℚ) :
    ∀ (xs : List α) (x : α), argmaxFirst f x xs ∈ x :: xs := by
  intro xs
  induction xs with
  | nil => intro x; exact List.mem_singleton.mpr rfl
  | cons y ys ih =>
    intro x
    simp only [argmaxFirst, List.foldl_cons]
    rcases List.mem_cons.mp (ih (if f x < f y then y else x)) with h | h
    · rw [argmaxFirst] at h
      rw [h]
      split
      · exact List.mem_cons_of_mem _ (List.mem_cons_self _ _)
      · exact List.mem_cons_self _ _
    · exact List.mem_cons_of_mem _ (List.mem_cons_of_mem _ h)

lemma argmaxFirst_ge {α : Type} (f : α → ℚ) :
    ∀ (xs : List α) (x : α) (y : α), y ∈ x :: xs →
      f y ≤ f (argmaxFirst f x xs) := by
  intro xs
  induction xs with
  | nil =>
    intro x y hy
    rw [List.mem_singleton.mp hy]
    exact le_refl _
  | cons z zs ih =>
    intro x y hy
    simp only [argmaxFirst, List.foldl_cons]
    have hstep : f x ≤ f (if f x < f z then z else x) ∧
        f z ≤ f (if f x < f z then z else x) := by
      split
      · rename_i hlt
        exact ⟨le_of_lt hlt, le_refl _⟩
      · rename_i hge
        exact ⟨le_refl _, le_of_not_lt hge⟩
    rcases List.mem_cons.mp hy with h | h
    · subst h
      exact le_trans hstep.1
        (ih (if f y < f z then z else y) _ (List.mem_cons_self _ _))
    · rcases List.mem_cons.mp h with h2 | h2
      · subst h2
        exact le_trans hstep.2
          (ih (if f x < f y then y else x) _ (List.mem_cons_self _ _))
      · exact ih (if f x < f z then z else x) y (List.mem_cons_of_mem _ h2)

/-- Claim C7 (amended): the smart policy selects an argmax of the score the
code computes: `40·success_rate + time_term + freshness + uniform(0,10) −
10·consecutive_failures`, where the response-time term is
`max(0, 30 − avg_ms/166.67)` when a response time has been measured
(`avg_ms > 0`) but the flat value 15 ("unknown = average") when it has not —
for every candidate list and every draw of the per-candidate uniform
randomness; freshness is `min(20, seconds_since_last_use/3)`, 20 when never
used. -/
theorem smart_rotation_argmax (now : ℚ) (l : List (Proxy × ℚ))
    (p : Proxy) (u : ℚ) (h : smartPick now l = some (p, u)) :
    (p, u) ∈ l ∧
    ∀ q ∈ l, scoreProxy now q.1 q.2 ≤ scoreProxy now p u := by
  cases l with
  | nil => cases h
  | cons x xs =>
    simp only [smartPick, Option.some.injEq] at h
    constructor
    · have hm := argmaxFirst_mem (fun pu => scoreProxy now pu.1 pu.2) xs x
      rw [h] at hm
      exact hm
    · intro q hq
      have h2 := argmaxFirst_ge (fun pu => scoreProxy now pu.1 pu.2) xs x q hq
      rw [h] at h2
      exact h2

/-- Witness for `smart_rotation_argmax`: a single candidate is selected and
is trivially the argmax. -/
theorem smart_rotation_argmax_witness :
    ((⟨"A", .untested, {}⟩ : Proxy), (0 : ℚ)) ∈
      [((⟨"A", .untested, {}⟩ : Proxy), (0 : ℚ))] ∧
    ∀ q ∈ [((⟨"A", .untested, {}⟩ : Proxy), (0 : ℚ))],
      scoreProxy 0 q.1 q.2 ≤ scoreProxy 0 ⟨"A", .untested, {}⟩ 0 :=
  smart_rotation_argmax 0 [(⟨"A", .untested, {}⟩, 0)] ⟨"A", .untested, {}⟩ 0 rfl

/-- Counterexample to claim C7 as stated: a never-measured proxy
(`avg_response_time = 0`) receives the flat response-time term 15 in the
code, not the claimed `max(0, 30 − 0/166.67) = 30`.  Against a proxy with
`avg_ms = 1666.7` (term `30 − 10 = 20`), the code picks the measured proxy
(15 + 20 = 35 < 20 + 20 = 40), although under the claimed formula the
unmeasured proxy is the unique argmax (30 + 20 = 50 > 40); draws are 0 for
both. -/
theorem smart_rotation_score_counterexample :
    smartPick 0 [(⟨"A", .untested, {}⟩, 0),
                 (⟨"B", .untested, { avg_response_time := 16667/10 }⟩, 0)] =
      some (⟨"B", .untested, { avg_response_time := 16667/10 }⟩, 0) ∧
    scoreClaim 0 (⟨"B", .untested, { avg_response_time := 16667/10 }⟩ : Proxy) 0 <
      scoreClaim 0 (⟨"A", .untested, {}⟩ : Proxy) 0 := by
  constructor
  · have hA : scoreProxy 0 (⟨"A", .untested, {}⟩ : Proxy) 0 = 35 := by
      norm_num [scoreProxy, successRate]
    have hB : scoreProxy 0
        (⟨"B", .untested, { avg_response_time := 16667/10 }⟩ : Proxy) 0 = 40 := by
      norm_num [scoreProxy, successRate]
    simp only [smartPick, argmaxFirst, List.foldl_cons, List.foldl_nil, hA, hB]
    norm_num
  · have hA : scoreClaim 0 (⟨"A", .untested, {}⟩ : Proxy) 0 = 50 := by
      norm_num [scoreClaim, successRate]
    have hB : scoreClaim 0
        (⟨"B", .untested, { avg_response_time := 16667/10 }⟩ : Proxy) 0 = 40 := by
      norm_num [scoreClaim, successRate]
    rw [hA, hB]
    norm_num

/-! ## Adyen client-side encryption — `phantom/checkout/adyen.py`,
`AdyenEncryptor._encrypt_field`

The library crypto primitives enter the model as parameters: `rsaEncrypt`
(RSA-OAEP of the AES key under the parsed public key), `aesCbc`
(AES-256-CBC of the padded plaintext), `strBytes` (UTF-8 encoding), and the
random `aesKey`/`iv` draws.  Bytes are `Nat` lists; `_pkcs7_pad` and the
base64 alphabet are concrete. -/

/-- `AdyenEncryptor._pkcs7_pad`: pad with `block_size - len % block_size`
bytes of that value (a full block when already aligned). -/
def pkcs7Pad (data : List Nat) (blockSize : Nat) : List Nat :=
  data ++ List.replicate (blockSize - data.length % blockSize)
    (blockSize - data.length % blockSize)

/-- `json.dumps(data, separators=(",", ":"))` for the flat string-valued
dict `_encrypt_field` receives (insertion order, no key sorting). -/
def dumpsStrDict (kvs : List (String × String)) : String :=
  "\x7b" ++
    joinWith "," (kvs.map (fun kv =>
      "\"" ++ escapeStr kv.1 ++ "\":\"" ++ escapeStr kv.2 ++ "\"")) ++
    "\x7d"

/-- The base64 alphabet character for a 6-bit index. -/
def b64Char (n : Nat) : Char :=
  ("ABCDEFGHIJKLMNOPQRSTUVWXYZabcdefghijklmnopqrstuvwxyz0123456789+/").data.getD
    n 'A'

/-- `base64.b64encode` over byte lists (standard alphabet, `=` padding). -/
def b64Encode : List Nat → String
  | [] => ""
  | [b1] => ⟨[b64Char (b1 / 4), b64Char (b1 % 4 * 16), '=', '=']⟩
  | [b1, b2] =>
    ⟨[b64Char (b1 / 4), b64Char (b1 % 4 * 16 + b2 / 16),
      b64Char (b2 % 16 * 4), '=']⟩
  | b1 :: b2 :: b3 :: rest =>
    ⟨[b64Char (b1 / 4), b64Char (b1 % 4 * 16 + b2 / 16),
      b64Char (b2 % 16 * 4 + b3 / 64), b64Char (b3 % 64)]⟩ ++ b64Encode rest

/-- `AdyenEncryptor._encrypt_field`:
`f"{_PREFIX}{b64_key}${b64_payload}"` with `_PREFIX = "adyenjs_0_1_25$"`,
`b64_key = b64(rsa(aes_key))` and `b64_payload = b64(iv + ciphertext)`. -/
def encryptField (rsaEncrypt : List Nat → List Nat)
    (aesCbc : List Nat → List Nat → List Nat → List Nat)
    (strBytes : String → List Nat)
    (aesKey iv : List Nat) (data : List (String × String)) : String :=
  "adyenjs_0_1_25$" ++ b64Encode (rsaEncrypt aesKey) ++ "$" ++
    b64Encode (iv ++ aesCbc aesKey iv (pkcs7Pad (strBytes (dumpsStrDict data)) 16))

/-- Python `s.split('$')` at the character-list level. -/
def splitCharList (c : Char) : List Char → List (List Char)
  | [] => [[]]
  | x :: xs =>
    match splitCharList c xs with
    | [] => [[]]
    | h :: t => if x = c then [] :: h :: t else (x :: h) :: t

/-- Python `s.split('$')`. -/
def splitOnChar (c : Char) (s : String) : List String :=
  (splitCharList c s.data).map (fun l => ⟨l⟩)

lemma splitCharList_ne_nil (c : Char) (l : List Char) :
    splitCharList c l ≠ [] := by
  cases l with
  | nil => simp [splitCharList]
  | cons x xs =>
    simp only [splitCharList]
    rcases splitCharList c xs with _ | ⟨h1, t⟩
    · simp
    · split
      · simp
      · split <;> simp

lemma splitCharList_no_sep (c : Char) (l : List Char) (h : c ∉ l) :
    splitCharList c l = [l] := by
  induction l with
  | nil => rfl
  | cons x xs ih =>
    have hx : x ≠ c := fun hc => h (hc ▸ List.mem_cons_self _ _)
    have hxs : c ∉ xs := fun hc => h (List.mem_cons_of_mem _ hc)
    simp only [splitCharList, ih hxs]
    rw [if_neg hx]

lemma splitCharList_append (c : Char) (l1 l2 : List Char) (h : c ∉ l1) :
    splitCharList c (l1 ++ c :: l2) = l1 :: splitCharList c l2 := by
  induction l1 with
  | nil =>
    simp only [List.nil_append, splitCharList]
    rcases h2 : splitCharList c l2 with _ | ⟨h1, t⟩
    · exact absurd h2 (splitCharList_ne_nil c l2)
    · simp
  | cons x xs ih =>
    have hx : x ≠ c := fun hc => h (hc ▸ List.mem_cons_self _ _)
    have hxs : c ∉ xs := fun hc => h (List.mem_cons_of_mem _ hc)
    simp only [List.cons_append, splitCharList, List.append_eq]
    rw [ih hxs]
    simp [hx]

lemma b64Char_ne_dollar (n : Nat) : b64Char n ≠ '$' := by
  by_cases h : n < 64
  · revert h
    revert n
    decide
  · unfold b64Char
    rw [List.getD_eq_default]
    · decide
    · have : ("ABCDEFGHIJKLMNOPQRSTUVWXYZabcdefghijklmnopqrstuvwxyz0123456789+/").data.length = 64 := by decide
      omega

lemma b64Encode_no_dollar : ∀ l : List Nat, '$' ∉ (b64Encode l).data := by
  intro l
  induction l using b64Encode.induct with
  | case1 => simp [b64Encode]
  | case2 b1 =>
    simp only [b64Encode, List.mem_cons]
    intro hc
    rcases hc with hc | hc | hc | hc | hc
    · exact b64Char_ne_dollar _ hc.symm
    · exact b64Char_ne_dollar _ hc.symm
    · cases hc
    · cases hc
    · cases hc
  | case3 b1 b2 =>
    simp only [b64Encode, List.mem_cons]
    intro hc
    rcases hc with hc | hc | hc | hc | hc
    · exact b64Char_ne_dollar _ hc.symm
    · exact b64Char_ne_dollar _ hc.symm
    · exact b64Char_ne_dollar _ hc.symm
    · cases hc
    · cases hc
  | case4 b1 b2 b3 rest ih =>
    simp only [b64Encode, String.data_append, List.mem_append, List.mem_cons]
    intro hc
    rcases hc with (hc | hc | hc | hc | hc) | hc
    · exact b64Char_ne_dollar _ hc.symm
    · exact b64Char_ne_dollar _ hc.symm
    · exact b64Char_ne_dollar _ hc.symm
    · exact b64Char_ne_dollar _ hc.symm
    · cases hc
    · exact ih hc

lemma strMk_data (s : String) : (⟨s.data⟩ : String) = s := by
  cases s
  rfl

/-- Claim C8 (confirmed): for every public key, card data, and AES key/IV
draw, the CSE output splits on `$` into exactly three parts — the version
tag `adyenjs_0_1_25`, the base64 of the RSA-encrypted AES key, and the
base64 of IV ‖ AES-CBC ciphertext. -/
theorem adyen_cse_output_format (rsaEncrypt : List Nat → List Nat)
    (aesCbc : List Nat → List Nat → List Nat → List Nat)
    (strBytes : String → List Nat) (aesKey iv : List Nat)
    (data : List (String × String)) :
    splitOnChar '$' (encryptField rsaEncrypt aesCbc strBytes aesKey iv data) =
      ["adyenjs_0_1_25", b64Encode (rsaEncrypt aesKey),
        b64Encode (iv ++ aesCbc aesKey iv
          (pkcs7Pad (strBytes (dumpsStrDict data)) 16))] ∧
    (splitOnChar '$'
      (encryptField rsaEncrypt aesCbc strBytes aesKey iv data)).length = 3 ∧
    (splitOnChar '$'
      (encryptField rsaEncrypt aesCbc strBytes aesKey iv data)).head? =
      some "adyenjs_0_1_25" := by
  have hk := b64Encode_no_dollar (rsaEncrypt aesKey)
  have hp := b64Encode_no_dollar
    (iv ++ aesCbc aesKey iv (pkcs7Pad (strBytes (dumpsStrDict data)) 16))
  have hhdr : ("adyenjs_0_1_25$" : String).data =
      ("adyenjs_0_1_25" : String).data ++ '$' ::
        ([] : List Char) := by decide
  have hnohdr : '$' ∉ ("adyenjs_0_1_25" : String).data := by decide
  have hdata : (encryptField rsaEncrypt aesCbc strBytes aesKey iv data).data =
      ("adyenjs_0_1_25" : String).data ++ '$' ::
        ((b64Encode (rsaEncrypt aesKey)).data ++ '$' ::
          (b64Encode (iv ++ aesCbc aesKey iv
            (pkcs7Pad (strBytes (dumpsStrDict data)) 16))).data) := by
    simp only [encryptField, String.data_append, hhdr, List.append_assoc]
    simp [String.data_append]
  have hsplit : splitCharList '$'
      (encryptField rsaEncrypt aesCbc strBytes aesKey iv data).data =
      [("adyenjs_0_1_25" : String).data,
        (b64Encode (rsaEncrypt aesKey)).data,
        (b64Encode (iv ++ aesCbc aesKey iv
          (pkcs7Pad (strBytes (dumpsStrDict data)) 16))).data] := by
    rw [hdata, splitCharList_append _ _ _ hnohdr, splitCharList_append _ _ _ hk,
      splitCharList_no_sep _ _ hp]
  refine ⟨?_, ?_, ?_⟩
  · rw [splitOnChar, hsplit]
    simp [strMk_data]
  · rw [splitOnChar, hsplit]
    rfl
  · rw [splitOnChar, hsplit]
    simp [strMk_data]

end Phantom
